import Mathlib

/-!
Verification of the customer CRUD core of the Customer Success Platform.

The reproducible core is an Express router over a single in-memory array
`customers : Customer[]` (src/src/models/Customer.ts), with three handlers
(src/unnamed/part_003):

  - `GET  /api/customers`      responds with the whole array as JSON.
  - `POST /api/customers`      destructures `name` and `email` from the
    parsed request body, builds a record with a fresh `uuidv4()` id and
    `healthScore = Math.random() * 100`, pushes it, responds 201.
  - `GET  /api/customers/:id`  first-match linear scan via `Array.find`;
    200 with the record, or 404 with the text "Customer not found".

The two sources of nondeterminism in the handler, the uuid draw and the
`Math.random()` draw, are passed as explicit parameters.  `Math.random`
returns a value in [0,1); we model the draw as a rational parameter and
state range facts under that contract.
-/

namespace CustomerPlatform

/-- A JSON value as it appears as a field of a parsed request body,
plus `undefined` for the result of destructuring an absent property
in JavaScript. -/
inductive Json where
  | undefined : Json
  | null : Json
  | bool : Bool → Json
  | num : ℚ → Json
  | str : String → Json
deriving DecidableEq, Repr

/-- A parsed JSON request body as a sequence of key/value fields. -/
abbrev ReqBody := List (String × Json)

/-- Property access on a parsed body.  `JSON.parse` keeps the last
occurrence of a duplicated key, and accessing an absent property yields
`undefined`. -/
def lookupField (body : ReqBody) (key : String) : Json :=
  body.foldl (fun acc kv => if kv.1 == key then kv.2 else acc) Json.undefined

/-- The `Customer` record of src/src/models/Customer.ts.  The handler
copies `name` and `email` from the body without validation, so at runtime
they are whatever JSON value (or `undefined`) the client sent; the
interface annotation `string` is not enforced. -/
structure Customer where
  id : String
  name : Json
  email : Json
  healthScore : ℚ
deriving DecidableEq, Repr

/-- The body of an HTTP response produced by the three handlers. -/
inductive ResBody where
  | single : Customer → ResBody
  | many : List Customer → ResBody
  | text : String → ResBody
deriving DecidableEq, Repr

/-- An HTTP response: status code and body. -/
structure Response where
  status : Nat
  body : ResBody
deriving DecidableEq, Repr

/-- The record built by the POST handler:
`{ id: uuidv4(), name, email, healthScore: Math.random() * 100 }`,
with the uuid draw and the `Math.random()` draw passed explicitly. -/
def mkCustomer (body : ReqBody) (uuid : String) (rand : ℚ) : Customer :=
  { id := uuid
    name := lookupField body "name"
    email := lookupField body "email"
    healthScore := rand * 100 }

/-- `GET /api/customers`: `res.json(customers)`.  Returns the response
together with the (unchanged) store. -/
def getAllCustomers (store : List Customer) : Response × List Customer :=
  ({ status := 200, body := ResBody.many store }, store)

/-- `POST /api/customers`: build the record, `customers.push(newCustomer)`,
respond `201` with the created record. -/
def postCustomer (store : List Customer) (body : ReqBody)
    (uuid : String) (rand : ℚ) : Response × List Customer :=
  let c := mkCustomer body uuid rand
  ({ status := 201, body := ResBody.single c }, store ++ [c])

/-- `GET /api/customers/:id`: `customers.find(c => c.id === req.params.id)`,
then 200 with the record or 404 with the text "Customer not found". -/
def getCustomerById (store : List Customer) (id : String) :
    Response × List Customer :=
  match store.find? (fun c => c.id == id) with
  | some c => ({ status := 200, body := ResBody.single c }, store)
  | none => ({ status := 404, body := ResBody.text "Customer not found" }, store)

/-- One API operation, with the nondeterministic draws of a POST carried
as data. -/
inductive ApiOp where
  | getAll : ApiOp
  | post : ReqBody → String → ℚ → ApiOp
  | getById : String → ApiOp
deriving DecidableEq, Repr

/-- Dispatch one operation against the store. -/
def runOp (store : List Customer) : ApiOp → Response × List Customer
  | ApiOp.getAll => getAllCustomers store
  | ApiOp.post body uuid rand => postCustomer store body uuid rand
  | ApiOp.getById id => getCustomerById store id

/-- Run a sequence of operations, threading the store. -/
def runOps (store : List Customer) : List ApiOp → List Customer
  | [] => store
  | op :: rest => runOps (runOp store op).2 rest

/-- The uuid draws consumed by the POST operations of a sequence, in
order.  `uuidv4` freshness is expressed as this list having no
duplicates. -/
def postUuids : List ApiOp → List String
  | [] => []
  | ApiOp.post _ uuid _ :: rest => uuid :: postUuids rest
  | _ :: rest => postUuids rest

/-- A create request: parsed body, uuid draw, `Math.random()` draw. -/
abbrev CreateReq := ReqBody × String × ℚ

/-- The POST operations corresponding to a list of create requests. -/
def postOps (reqs : List CreateReq) : List ApiOp :=
  reqs.map (fun r => ApiOp.post r.1 r.2.1 r.2.2)

/-- The record a create request gives rise to. -/
def createdCustomer (r : CreateReq) : Customer :=
  mkCustomer r.1 r.2.1 r.2.2

/-! ### Helper lemmas -/

/-- The GET-by-id handler never mutates the store. -/
lemma getCustomerById_snd (store : List Customer) (id : String) :
    (getCustomerById store id).2 = store := by
  unfold getCustomerById
  split <;> rfl

/-- Running a sequence of POSTs appends the created records in order. -/
lemma runOps_postOps (reqs : List CreateReq) (store : List Customer) :
    runOps store (postOps reqs) = store ++ reqs.map createdCustomer := by
  induction reqs generalizing store with
  | nil => simp [postOps, runOps]
  | cons r rs ih =>
    simp [postOps, runOps, runOp, postCustomer, createdCustomer] at ih ⊢
    rw [ih]
    simp

/-- Any single operation leaves the store an extension of what it was. -/
lemma runOp_snd_extends (store : List Customer) (op : ApiOp) :
    ∃ t, (runOp store op).2 = store ++ t := by
  cases op with
  | getAll => exact ⟨[], by simp [runOp, getAllCustomers]⟩
  | post body uuid rand => exact ⟨[mkCustomer body uuid rand], rfl⟩
  | getById i => exact ⟨[], by simp [runOp, getCustomerById_snd]⟩

/-- Any sequence of operations leaves the store an extension of what
it was. -/
lemma runOps_extends (ops : List ApiOp) :
    ∀ store : List Customer, ∃ t, runOps store ops = store ++ t := by
  induction ops with
  | nil => exact fun store => ⟨[], by simp [runOps]⟩
  | cons op rest ih =>
    intro store
    obtain ⟨u, hu⟩ := runOp_snd_extends store op
    obtain ⟨t, ht⟩ := ih (runOp store op).2
    refine ⟨u ++ t, ?_⟩
    show runOps (runOp store op).2 rest = store ++ (u ++ t)
    rw [ht, hu, List.append_assoc]

/-- Invariant preservation for id uniqueness, generalized over the
starting store. -/
lemma runOps_ids_nodup_aux (ops : List ApiOp) :
    ∀ store : List Customer, (postUuids ops).Nodup →
    (∀ u ∈ postUuids ops, ∀ c ∈ store, c.id ≠ u) →
    (store.map Customer.id).Nodup →
    ((runOps store ops).map Customer.id).Nodup := by
  induction ops with
  | nil => intro store _ _ hs; simpa [runOps] using hs
  | cons op rest ih =>
    intro store hnd hfresh hs
    cases op with
    | getAll =>
      show ((runOps (runOp store ApiOp.getAll).2 rest).map Customer.id).Nodup
      simp only [runOp, getAllCustomers]
      exact ih store (by simpa [postUuids] using hnd)
        (fun u hu => hfresh u (by simpa [postUuids] using hu)) hs
    | getById i =>
      show ((runOps (runOp store (ApiOp.getById i)).2 rest).map Customer.id).Nodup
      simp only [runOp, getCustomerById_snd]
      exact ih store (by simpa [postUuids] using hnd)
        (fun u hu => hfresh u (by simpa [postUuids] using hu)) hs
    | post body uuid rand =>
      show ((runOps (runOp store (ApiOp.post body uuid rand)).2 rest).map
        Customer.id).Nodup
      simp only [runOp, postCustomer]
      have hcons : uuid ∉ postUuids rest ∧ (postUuids rest).Nodup := by
        simpa [postUuids, List.nodup_cons] using hnd
      refine ih (store ++ [mkCustomer body uuid rand]) hcons.2 ?_ ?_
      · intro u hu c hc
        rcases List.mem_append.mp hc with hcs | hcn
        · exact hfresh u (by simp [postUuids, hu]) c hcs
        · have : c = mkCustomer body uuid rand := by simpa using hcn
          subst this
          show (mkCustomer body uuid rand).id ≠ u
          intro h
          apply hcons.1
          have huuid : uuid = u := h
          rw [huuid]
          exact hu
      · rw [List.map_append]
        refine List.nodup_append.mpr ⟨hs, by simp, ?_⟩
        intro a ha
        rcases List.mem_map.mp ha with ⟨c, hc, hca⟩
        simp only [List.map_cons, List.map_nil, List.mem_singleton]
        intro hau
        have : c.id = uuid := by rw [hca, hau]; rfl
        exact hfresh uuid (by simp [postUuids]) c hc this

/-! ### Theorems -/

/-- C1: the POST handler creates a record whose `name` and `email` are read
from the body, whose `id` is the fresh uuid draw and whose `healthScore` is
the `Math.random()` draw scaled to [0,100); it appends that record to the
store and responds 201 with the created record as the body. -/
theorem post_creates_record (store : List Customer) (body : ReqBody)
    (uuid : String) (rand : ℚ) (hr0 : 0 ≤ rand) (hr1 : rand < 1) :
    (postCustomer store body uuid rand).1.status = 201 ∧
    (postCustomer store body uuid rand).1.body =
      ResBody.single ⟨uuid, lookupField body "name",
        lookupField body "email", rand * 100⟩ ∧
    (postCustomer store body uuid rand).2 =
      store ++ [⟨uuid, lookupField body "name",
        lookupField body "email", rand * 100⟩] ∧
    0 ≤ rand * 100 ∧ rand * 100 < 100 := by
  refine ⟨rfl, rfl, rfl, by positivity, ?_⟩
  have := mul_lt_mul_of_pos_right hr1 (show (0:ℚ) < 100 by norm_num)
  simpa using this

theorem post_creates_record_witness :
    (postCustomer [] [("name", Json.str "Test Customer"),
        ("email", Json.str "test@example.com")] "u1" (1/2)).1.status = 201 ∧
    (postCustomer [] [("name", Json.str "Test Customer"),
        ("email", Json.str "test@example.com")] "u1" (1/2)).1.body =
      ResBody.single ⟨"u1", lookupField [("name", Json.str "Test Customer"),
        ("email", Json.str "test@example.com")] "name",
        lookupField [("name", Json.str "Test Customer"),
        ("email", Json.str "test@example.com")] "email", (1/2 : ℚ) * 100⟩ ∧
    (postCustomer [] [("name", Json.str "Test Customer"),
        ("email", Json.str "test@example.com")] "u1" (1/2)).2 =
      [] ++ [⟨"u1", lookupField [("name", Json.str "Test Customer"),
        ("email", Json.str "test@example.com")] "name",
        lookupField [("name", Json.str "Test Customer"),
        ("email", Json.str "test@example.com")] "email", (1/2 : ℚ) * 100⟩] ∧
    0 ≤ (1/2 : ℚ) * 100 ∧ (1/2 : ℚ) * 100 < 100 :=
  post_creates_record [] [("name", Json.str "Test Customer"),
    ("email", Json.str "test@example.com")] "u1" (1/2)
    (by norm_num) (by norm_num)

/-- C5: the `healthScore` of any created customer lies in [0, 100),
given that `Math.random()` returns a value in [0, 1). -/
theorem healthScore_in_range (body : ReqBody) (uuid : String) (rand : ℚ)
    (hr0 : 0 ≤ rand) (hr1 : rand < 1) :
    0 ≤ (mkCustomer body uuid rand).healthScore ∧
    (mkCustomer body uuid rand).healthScore < 100 := by
  constructor
  · simpa [mkCustomer] using mul_nonneg hr0 (by norm_num : (0:ℚ) ≤ 100)
  · have := mul_lt_mul_of_pos_right hr1 (show (0:ℚ) < 100 by norm_num)
    simpa [mkCustomer] using this

theorem healthScore_in_range_witness :
    0 ≤ (mkCustomer [] "u1" (3/4)).healthScore ∧
    (mkCustomer [] "u1" (3/4)).healthScore < 100 :=
  healthScore_in_range [] "u1" (3/4) (by norm_num) (by norm_num)

/-- C6: POST is not idempotent: running the same body twice (with the two
fresh uuid draws, which differ) produces two 201 responses and appends two
distinct records with different ids, growing the store by two. -/
theorem post_not_idempotent (store : List Customer) (body : ReqBody)
    (u1 u2 : String) (r1 r2 : ℚ) (hu : u1 ≠ u2) :
    (postCustomer store body u1 r1).1.status = 201 ∧
    (postCustomer (postCustomer store body u1 r1).2 body u2 r2).1.status = 201 ∧
    (postCustomer (postCustomer store body u1 r1).2 body u2 r2).2 =
      store ++ [mkCustomer body u1 r1, mkCustomer body u2 r2] ∧
    mkCustomer body u1 r1 ≠ mkCustomer body u2 r2 ∧
    (mkCustomer body u1 r1).id ≠ (mkCustomer body u2 r2).id ∧
    (postCustomer (postCustomer store body u1 r1).2 body u2 r2).2.length =
      store.length + 2 := by
  refine ⟨rfl, rfl, by simp [postCustomer], ?_, hu, by simp [postCustomer]⟩
  intro h
  exact hu (congrArg Customer.id h)

theorem post_not_idempotent_witness :
    (postCustomer [] [("name", Json.str "A")] "u1" 0).1.status = 201 ∧
    (postCustomer (postCustomer [] [("name", Json.str "A")] "u1" 0).2
      [("name", Json.str "A")] "u2" 0).1.status = 201 ∧
    (postCustomer (postCustomer [] [("name", Json.str "A")] "u1" 0).2
      [("name", Json.str "A")] "u2" 0).2 =
      [] ++ [mkCustomer [("name", Json.str "A")] "u1" 0,
        mkCustomer [("name", Json.str "A")] "u2" 0] ∧
    mkCustomer [("name", Json.str "A")] "u1" 0 ≠
      mkCustomer [("name", Json.str "A")] "u2" 0 ∧
    (mkCustomer [("name", Json.str "A")] "u1" 0).id ≠
      (mkCustomer [("name", Json.str "A")] "u2" 0).id ∧
    (postCustomer (postCustomer [] [("name", Json.str "A")] "u1" 0).2
      [("name", Json.str "A")] "u2" 0).2.length = ([] : List Customer).length + 2 :=
  post_not_idempotent [] [("name", Json.str "A")] "u1" "u2" 0 0 (by decide)

/-- C8: creation always succeeds: for every parsed body whatsoever the
handler responds 201 and the store grows by exactly one, the new record
appended at the end; no error branch exists. -/
theorem post_always_succeeds (store : List Customer) (body : ReqBody)
    (uuid : String) (rand : ℚ) :
    (postCustomer store body uuid rand).1.status = 201 ∧
    (postCustomer store body uuid rand).2 =
      store ++ [mkCustomer body uuid rand] ∧
    (postCustomer store body uuid rand).2.length = store.length + 1 := by
  exact ⟨rfl, rfl, by simp [postCustomer]⟩

/-- C9: client-supplied `id` and `healthScore` body fields are ignored:
two bodies that agree on `name` and `email` (and may differ arbitrarily
elsewhere) produce, under the same uuid and random draws, the same
response and the same store. -/
theorem client_fields_ignored (store : List Customer) (b1 b2 : ReqBody)
    (uuid : String) (rand : ℚ)
    (hn : lookupField b1 "name" = lookupField b2 "name")
    (he : lookupField b1 "email" = lookupField b2 "email") :
    postCustomer store b1 uuid rand = postCustomer store b2 uuid rand := by
  simp [postCustomer, mkCustomer, hn, he]

theorem client_fields_ignored_witness :
    postCustomer [] [("name", Json.str "A"), ("email", Json.str "a@x"),
        ("id", Json.str "evil"), ("healthScore", Json.num 999)] "u1" 0 =
      postCustomer [] [("name", Json.str "A"), ("email", Json.str "a@x")]
        "u1" 0 :=
  client_fields_ignored [] _ _ "u1" 0 (by decide) (by decide)

/-- C2: GET /api/customers responds 200 with the full store, leaves the
store unchanged, and after creating N customers from the empty store it
returns exactly N records in creation order. -/
theorem getAll_returns_store_in_order (store : List Customer)
    (reqs : List CreateReq) :
    (getAllCustomers store).1 = { status := 200, body := ResBody.many store } ∧
    (getAllCustomers store).2 = store ∧
    (getAllCustomers (runOps [] (postOps reqs))).1 =
      { status := 200, body := ResBody.many (reqs.map createdCustomer) } ∧
    (reqs.map createdCustomer).length = reqs.length := by
  refine ⟨rfl, rfl, ?_, by simp⟩
  rw [runOps_postOps]
  rfl

/-- C3: GET /api/customers/:id responds 200 with a matching record exactly
when one is stored, and otherwise 404 with the text "Customer not found";
in both cases the store is untouched and the lookup is total. -/
theorem getById_found_or_not (store : List Customer) (id : String) :
    (∃ c, c ∈ store ∧ c.id = id ∧
      getCustomerById store id =
        ({ status := 200, body := ResBody.single c }, store)) ∨
    ((∀ c ∈ store, c.id ≠ id) ∧
      getCustomerById store id =
        ({ status := 404, body := ResBody.text "Customer not found" }, store)) := by
  cases h : store.find? (fun c => c.id == id) with
  | none =>
    right
    refine ⟨fun c hc => ?_, by simp [getCustomerById, h]⟩
    have := List.find?_eq_none.mp h c hc
    simpa using this
  | some c =>
    left
    refine ⟨c, List.mem_of_find?_eq_some h, ?_, by simp [getCustomerById, h]⟩
    have := List.find?_some h
    simpa using this

/-- C4: starting from the empty store, after any sequence of API
operations whose uuid draws are pairwise distinct (the contract of
`uuidv4`), the stored ids are pairwise distinct; and no other check is
enforced: from any reachable store, a POST with any body and any draws
is accepted with 201. -/
theorem store_ids_unique (ops : List ApiOp)
    (hfresh : (postUuids ops).Nodup) :
    ((runOps [] ops).map Customer.id).Nodup ∧
    ∀ (body : ReqBody) (uuid : String) (rand : ℚ),
      (postCustomer (runOps [] ops) body uuid rand).1.status = 201 := by
  refine ⟨?_, fun _ _ _ => rfl⟩
  exact runOps_ids_nodup_aux ops [] hfresh (by simp) (by simp)

/-- A concrete operation sequence: an empty name, a missing name, a
duplicated email and out-of-range random draws, all accepted. -/
def demoOps : List ApiOp :=
  [ApiOp.post [("name", Json.str ""), ("email", Json.str "a@x")] "u1" 2,
   ApiOp.post [("email", Json.str "a@x")] "u2" (-1),
   ApiOp.getAll,
   ApiOp.getById "u1"]

theorem store_ids_unique_witness :
    ((runOps [] demoOps).map Customer.id).Nodup ∧
    (postCustomer (runOps [] demoOps) [] "u3" 5).1.status = 201 :=
  ⟨(store_ids_unique demoOps (by decide)).1,
   (store_ids_unique demoOps (by decide)).2 [] "u3" 5⟩

/-- C7: the store is mutated only by append: both GET handlers return the
store unchanged, and any sequence of operations leaves the original store
as an unmodified initial segment of the final store. -/
theorem store_mutated_only_by_append (store : List Customer) (id : String)
    (ops : List ApiOp) :
    (getAllCustomers store).2 = store ∧
    (getCustomerById store id).2 = store ∧
    ∃ t, runOps store ops = store ++ t :=
  ⟨rfl, getCustomerById_snd store id, runOps_extends ops store⟩

/-- C10: the lookup is a first-match linear scan in insertion order: when
several stored records share an id, GET /api/customers/:id returns the
earliest-appended one. -/
theorem getById_first_match (s1 s2 : List Customer) (c : Customer)
    (id : String) (hc : c.id = id) (hpre : ∀ d ∈ s1, d.id ≠ id) :
    getCustomerById (s1 ++ c :: s2) id =
      ({ status := 200, body := ResBody.single c }, s1 ++ c :: s2) := by
  have hfind : (s1 ++ c :: s2).find? (fun d => d.id == id) = some c := by
    induction s1 with
    | nil => simp [List.find?_cons, hc]
    | cons a as ih =>
      have ha : (a.id == id) = false :=
        beq_eq_false_iff_ne.mpr (hpre a (by simp))
      rw [List.cons_append, List.find?_cons, ha]
      exact ih (fun d hd => hpre d (by simp [hd]))
  simp [getCustomerById, hfind]

/-- Two records sharing the id "b" with different payloads, behind one
non-matching record. -/
def dupFirst : Customer := ⟨"b", Json.str "first", Json.null, 1⟩

def dupSecond : Customer := ⟨"b", Json.str "second", Json.null, 2⟩

def nonMatching : Customer := ⟨"a", Json.null, Json.null, 0⟩

theorem getById_first_match_witness :
    getCustomerById ([nonMatching] ++ dupFirst :: [dupSecond]) "b" =
      ({ status := 200, body := ResBody.single dupFirst },
        [nonMatching] ++ dupFirst :: [dupSecond]) :=
  getById_first_match [nonMatching] [dupSecond] dupFirst "b" rfl (by decide)

end CustomerPlatform
